import Mathlib

/-!
Verification of `extract_linkedin_cookies.py` (TechWithTy/linkedin_scraper).

Shallow embedding of the cookie discovery/extraction pipeline:

* SQLite stores are modelled as the list of outcomes their schema-specific
  queries produce when executed in the fixed source order (`QueryResult`):
  an `OperationalError` (schema error), any other exception, or a list of
  raw rows.
* A raw row carries the seven selected columns
  `name, value, host/host_key, path, expiry/expires_utc, isSecure/is_secure,
  isHttpOnly/is_httponly`; nullable SQLite cells are `Option`s and a value
  cell may hold text or opaque bytes (`CookieValue`).
* Hosts/domains are lists of characters so that the dot-prefix normalization
  of lines 229 and 271 can be reasoned about structurally.
* Python's `bytes.decode('utf-8')` is embedded as an executable UTF-8
  decoder over byte lists (`utf8Decode`).
* The extractors return, besides their `Option`al cookie list, the number of
  queries actually executed, which lets short-circuiting of the ordered
  query fallback be stated exactly.
-/

namespace LinkedinScraper

/-- A cookie value as read from SQLite: text, or opaque bytes
(Chromium stores may hold encrypted blobs). -/
inductive CookieValue where
  | text (s : String)
  | bytes (b : List Nat)
deriving DecidableEq

/-- Is `b` a UTF-8 continuation byte (`0x80..0xBF`)? -/
def isContByte (b : Nat) : Bool := 0x80 ≤ b && b ≤ 0xBF

/-- Decode one UTF-8 scalar from the front of a byte list, returning the code
point and the remaining bytes, or `none` when the sequence is invalid
(stray continuation byte, truncated sequence, overlong form, surrogate, or
out-of-range code point) — mirroring Python's strict `bytes.decode('utf-8')`
raising `UnicodeDecodeError`. -/
def utf8DecodeOne : List Nat → Option (Nat × List Nat)
  | [] => none
  | b0 :: rest =>
    if b0 < 0x80 then some (b0, rest)
    else if b0 < 0xC2 then none
    else if b0 ≤ 0xDF then
      match rest with
      | b1 :: rest1 =>
        if isContByte b1 then some ((b0 - 0xC0) * 0x40 + (b1 - 0x80), rest1)
        else none
      | [] => none
    else if b0 ≤ 0xEF then
      match rest with
      | b1 :: b2 :: rest2 =>
        if isContByte b1 && isContByte b2 then
          let c := (b0 - 0xE0) * 0x1000 + (b1 - 0x80) * 0x40 + (b2 - 0x80)
          if c < 0x800 then none
          else if 0xD800 ≤ c && c ≤ 0xDFFF then none
          else some (c, rest2)
        else none
      | _ => none
    else if b0 ≤ 0xF4 then
      match rest with
      | b1 :: b2 :: b3 :: rest3 =>
        if isContByte b1 && isContByte b2 && isContByte b3 then
          let c := (b0 - 0xF0) * 0x40000 + (b1 - 0x80) * 0x1000 +
                   (b2 - 0x80) * 0x40 + (b3 - 0x80)
          if c < 0x10000 then none
          else if 0x10FFFF < c then none
          else some (c, rest3)
        else none
      | _ => none
    else none

/-- Fuelled decoding loop; `utf8DecodeOne` consumes at least one byte per
step, so fuel equal to the list length always suffices. -/
def utf8DecodeLoop : Nat → List Nat → Option (List Char)
  | _, [] => some []
  | 0, _ :: _ => none
  | fuel + 1, bs =>
    match utf8DecodeOne bs with
    | none => none
    | some (c, rest) =>
      match utf8DecodeLoop fuel rest with
      | none => none
      | some cs => some (Char.ofNat c :: cs)

/-- Python `b.decode('utf-8')`: the decoded string, or `none` on
`UnicodeDecodeError`. -/
def utf8Decode (bs : List Nat) : Option String :=
  (utf8DecodeLoop bs.length bs).map List.asString

/-- The value handling of the Chromium extractor (lines 274-280): a text cell
is used as-is; a bytes cell is decoded as UTF-8, `none` signalling the
`UnicodeDecodeError` path that skips the row. -/
def decodeValue : CookieValue → Option String
  | CookieValue.text s => some s
  | CookieValue.bytes b => utf8Decode b

/-- One raw cookie row as fetched by either family's `SELECT`
(`name, value, host, path, expiry, isSecure, isHttpOnly` for Firefox,
`name, value, host_key, path, expires_utc, is_secure, is_httponly` for
Chromium). Nullable integer cells are `Option Int`; the path cell may be
`NULL` or empty. -/
structure RawCookieRow where
  name : String
  value : CookieValue
  host : List Char
  path : Option String
  expiry : Option Int
  secureFlag : Option Int
  httpOnlyFlag : Option Int
deriving DecidableEq

/-- Canonical cookie dict built at lines 226-234 / 282-290. The Firefox path
stores `row[1]` unaltered, so the value field keeps the `CookieValue` type. -/
structure Cookie where
  name : String
  value : CookieValue
  domain : List Char
  path : String
  expiry : Option Int
  secure : Bool
  httpOnly : Bool
deriving DecidableEq

/-- Does the host begin with a dot? (Python `host.startswith('.')`.) -/
def startsWithDot : List Char → Bool
  | '.' :: _ => true
  | _ => false

/-- Does the host contain a dot? (Python `'.' in host`.) -/
def containsDot (h : List Char) : Bool := h.contains '.'

/-- Domain normalization shared by lines 229 (Firefox) and 271 (Chromium):
`host if host.startswith('.') else (("." + host) if '.' in host else host)`. -/
def normalizeDomain (h : List Char) : List Char :=
  if startsWithDot h then h
  else if containsDot h then '.' :: h
  else h

/-- Python `row[3] or '/'`: `NULL` and the empty string both default to "/". -/
def pathOrSlash : Option String → String
  | none => "/"
  | some s => if s = "" then "/" else s

/-- Python `row[4] if row[4] else None`: a falsy expiry (`NULL` or `0`)
becomes `None`; any other value passes through in store-native units. -/
def truthyExpiry : Option Int → Option Int
  | none => none
  | some v => if v = 0 then none else some v

/-- Python `bool(flag) if flag is not None else default` for the
`secure`/`httpOnly` flags. -/
def flagOrDefault (flag : Option Int) (dflt : Bool) : Bool :=
  match flag with
  | some v => v != 0
  | none => dflt

/-- The cookie dict the Firefox extractor builds per row (lines 226-234).
No decoding is attempted on the value: `row[1]` is stored as fetched. -/
def firefoxCookieOfRow (r : RawCookieRow) : Cookie :=
  { name := r.name
    value := r.value
    domain := normalizeDomain r.host
    path := pathOrSlash r.path
    expiry := truthyExpiry r.expiry
    secure := flagOrDefault r.secureFlag true
    httpOnly := flagOrDefault r.httpOnlyFlag false }

/-- The cookie dict the Chromium extractor builds per row (lines 269-290):
the value cell is decoded first and an undecodable bytes cell skips the row
(`continue` at line 280), i.e. yields `none`. -/
def chromeCookieOfRow (r : RawCookieRow) : Option Cookie :=
  match decodeValue r.value with
  | none => none
  | some v =>
    some
      { name := r.name
        value := CookieValue.text v
        domain := normalizeDomain r.host
        path := pathOrSlash r.path
        expiry := truthyExpiry r.expiry
        secure := flagOrDefault r.secureFlag true
        httpOnly := flagOrDefault r.httpOnlyFlag false }

/-- Outcome of executing one of the hard-coded `SELECT` queries against a
store: an `OperationalError` (missing column/table, i.e. schema mismatch),
any other exception, or a fetched list of rows. A store is modelled as the
list of outcomes of its candidate queries in the source's fixed order. -/
inductive QueryResult where
  | schemaError
  | otherError
  | ok (rows : List RawCookieRow)
deriving DecidableEq

/-- `extract_cookies_from_firefox` (lines 203-246) over the outcomes of its
three candidate queries (baseDomain, explicit host list, host substring), in
order. `OperationalError` falls through to the next query; an empty row set
also falls through (`if rows:`); a non-empty row set is converted and
returned at once; any other exception escapes the inner loop, is caught by
the outer handler and yields `None`. The second component counts the queries
actually executed. -/
def extract_cookies_from_firefox : List QueryResult → Option (List Cookie) × Nat
  | [] => (none, 0)
  | QueryResult.schemaError :: rest =>
    let r := extract_cookies_from_firefox rest
    (r.1, r.2 + 1)
  | QueryResult.otherError :: _ => (none, 1)
  | QueryResult.ok rows :: rest =>
    if rows.isEmpty then
      let r := extract_cookies_from_firefox rest
      (r.1, r.2 + 1)
    else (some (rows.map firefoxCookieOfRow), 1)

/-- `extract_cookies_from_chrome_edge` (lines 249-304) over the outcomes of
its three candidate queries (`%linkedin.com` substring, `%.linkedin.com`
dotted substring, exact `www.linkedin.com`), in order. Unlike the Firefox
extractor it also catches generic exceptions per query (lines 297-298), so
every failure falls through to the next query; a non-empty row set is
converted (undecodable rows skipped) and returned at once. -/
def extract_cookies_from_chrome_edge : List QueryResult → Option (List Cookie) × Nat
  | [] => (none, 0)
  | QueryResult.schemaError :: rest =>
    let r := extract_cookies_from_chrome_edge rest
    (r.1, r.2 + 1)
  | QueryResult.otherError :: rest =>
    let r := extract_cookies_from_chrome_edge rest
    (r.1, r.2 + 1)
  | QueryResult.ok rows :: rest =>
    if rows.isEmpty then
      let r := extract_cookies_from_chrome_edge rest
      (r.1, r.2 + 1)
    else (some (rows.filterMap chromeCookieOfRow), 1)

/-- Outcome of one `SELECT COUNT(*)` probe query in `has_linkedin_cookies`:
an `OperationalError`, some other exception, or the fetched count. -/
inductive ProbeOutcome where
  | opError
  | otherError
  | count (n : Nat)
deriving DecidableEq

/-- `has_linkedin_cookies` for a Firefox store (lines 30-46, 55-59): try the
`baseDomain` count query; on `OperationalError` fall back to the
`host LIKE` count query; any other failure is swallowed by the outer
`except Exception: pass` and the function returns `False`. The second
component is the text printed while probing — the source prints nothing
here ("Silently fail - don't print warnings during discovery"). -/
def has_linkedin_cookies_firefox (q1 q2 : ProbeOutcome) : Bool × List String :=
  match q1 with
  | ProbeOutcome.count n => (decide (0 < n), [])
  | ProbeOutcome.opError =>
    match q2 with
    | ProbeOutcome.count m => (decide (0 < m), [])
    | _ => (false, [])
  | ProbeOutcome.otherError => (false, [])

/-- `has_linkedin_cookies` for a Chromium store (lines 47-59): a single
`host_key LIKE` count query; any failure yields `False`; nothing is
printed. -/
def has_linkedin_cookies_chrome (q : ProbeOutcome) : Bool × List String :=
  match q with
  | ProbeOutcome.count n => (decide (0 < n), [])
  | _ => (false, [])

/-- The prioritization loop shared by the three locators (lines 92-102,
141-151, 190-200): stores the probe confirms go to `prioritized`, the rest
to `others`, in a single pass appending in enumeration order; the result is
`prioritized + others`. -/
def rankStores {α : Type} (p : α → Bool) (files : List α) : List α :=
  let buckets := files.foldl
    (fun (acc : List α × List α) f =>
      if p f then (acc.1 ++ [f], acc.2) else (acc.1, acc.2 ++ [f]))
    ([], [])
  buckets.1 ++ buckets.2

/-- The filesystem operations `get_chrome_cookie_files` performs:
`os.path.exists` and `glob.glob`. -/
structure FileSystemView where
  pathExists : String → Bool
  globMatches : String → List String

/-- What one existing Chrome base directory contributes to the candidate
list (lines 122-139): the `Default/Cookies` store when present, then the
`Profile */Cookies` glob matches, then the `Profile [0-9]*/Cookies` glob
matches; a missing base directory contributes nothing (the `continue`). -/
def chromeStoresUnder (fs : FileSystemView) (base : String) : List String :=
  if fs.pathExists base then
    (if fs.pathExists (base ++ "/Default/Cookies") then [base ++ "/Default/Cookies"]
     else []) ++
    fs.globMatches (base ++ "/Profile */Cookies") ++
    fs.globMatches (base ++ "/Profile [0-9]*/Cookies")
  else []

/-- `get_chrome_cookie_files` (lines 105-151), with the per-OS base-path
list (lines 109-120) passed as data and home-expansion folded into the
paths: accumulate each base path's contribution, then apply the probe-based
prioritization. -/
def get_chrome_cookie_files (fs : FileSystemView) (probe : String → Bool)
    (base_paths : List String) : List String :=
  let cookie_files := base_paths.foldl
    (fun acc base => acc ++ chromeStoresUnder fs base) []
  rankStores probe cookie_files

/-- The deduplication key (line 394): `(cookie['name'], cookie['domain'])`. -/
def cookieKey (c : Cookie) : String × List Char := (c.name, c.domain)

/-- The dedup loop of lines 390-397 with the `seen` set as a list of keys:
a cookie is kept iff its key was not seen before, and kept cookies retain
their order. -/
def dedupGo (seen : List (String × List Char)) : List Cookie → List Cookie
  | [] => []
  | c :: rest =>
    if cookieKey c ∈ seen then dedupGo seen rest
    else c :: dedupGo (cookieKey c :: seen) rest

/-- `unique_cookies` as built at lines 390-397 from `all_cookies`. -/
def dedupCookies (l : List Cookie) : List Cookie := dedupGo [] l

/-- Module constant `LINKEDIN_AUTH_COOKIES` (line 25); not consulted by the
verdict, which uses the local list below. -/
def LINKEDIN_AUTH_COOKIES : List String :=
  ["li_at", "JSESSIONID", "bcookie", "bscookie", "lang", "li_rm"]

/-- The local `auth_cookie_names` list of line 400. -/
def auth_cookie_names : List String :=
  ["li_at", "JSESSIONID", "bcookie", "bscookie"]

/-- `found_auth_cookies` (line 401):
`any(c['name'] in auth_cookie_names for c in unique_cookies)`. -/
def found_auth_cookies (unique_cookies : List Cookie) : Bool :=
  unique_cookies.any (fun c => auth_cookie_names.contains c.name)

/-- A candidate store paired with the extractor the dispatch at lines
374-377 selects for it (path containing `firefox`/`mozilla` vs. the rest),
modelled by the family tag. -/
inductive BrowserStore where
  | firefox (outcomes : List QueryResult)
  | chromium (outcomes : List QueryResult)
deriving DecidableEq

/-- The per-store extraction dispatch of lines 373-377. -/
def extractStore : BrowserStore → Option (List Cookie)
  | BrowserStore.firefox o => (extract_cookies_from_firefox o).1
  | BrowserStore.chromium o => (extract_cookies_from_chrome_edge o).1

/-- The `all_cookies` accumulation loop (lines 368-382): each store's
extraction is appended when it is truthy (`if cookies:` — `None` and the
empty list both contribute nothing). -/
def all_cookies (stores : List BrowserStore) : List Cookie :=
  stores.foldl
    (fun acc s =>
      match extractStore s with
      | some cs => if cs.isEmpty then acc else acc ++ cs
      | none => acc)
    []

/-- What a run of `extract_linkedin_cookies` produces: the returned output
path (`None` on failure), the cookie list serialized to the artifact
(`none` when no file was written), and the computed
authentication-sufficiency verdict (`none` when the run returned before
computing it). -/
structure RunResult where
  output : Option String
  artifact : Option (List Cookie)
  authSufficient : Option Bool
deriving DecidableEq

/-- `extract_linkedin_cookies` (lines 307-423) after store discovery, over
the discovered store list: no stores → `None` before anything is written
(lines 358-362); no extracted cookies → `None` (lines 384-388); otherwise
dedup, verdict, and the write — `writeOk` models whether `open`/`json.dump`
succeeds, its failure being caught at lines 420-423 and turned into `None`. -/
def extract_linkedin_cookies (stores : List BrowserStore) (output_file : String)
    (writeOk : Bool) : RunResult :=
  if stores.isEmpty then ⟨none, none, none⟩
  else
    let cs := all_cookies stores
    if cs.isEmpty then ⟨none, none, none⟩
    else
      let unique_cookies := dedupCookies cs
      let verdict := found_auth_cookies unique_cookies
      if writeOk then ⟨some output_file, some unique_cookies, some verdict⟩
      else ⟨none, none, some verdict⟩

/-! ### Concrete rows and stores used by witnesses and counterexamples -/

/-- A `lang` cookie row as a Chromium store would yield it. -/
def langRow : RawCookieRow :=
  { name := "lang", value := CookieValue.text "v=2&lang=en-us",
    host := ".linkedin.com".data, path := some "/", expiry := some 0,
    secureFlag := some 1, httpOnlyFlag := some 0 }

/-- A `bscookie` cookie row as a Chromium store would yield it. -/
def bscookieRow : RawCookieRow :=
  { name := "bscookie", value := CookieValue.text "v=1",
    host := ".www.linkedin.com".data, path := some "/", expiry := some 1750000000,
    secureFlag := some 1, httpOnlyFlag := some 1 }

/-- A Chromium store whose only matching rows are `lang` and `bscookie`. -/
def cexStore : BrowserStore :=
  BrowserStore.chromium [QueryResult.ok [langRow, bscookieRow]]

/-- A row whose value cell holds the single byte `0xFF`, which no UTF-8
decode accepts. -/
def bytesRow : RawCookieRow :=
  { name := "li_at", value := CookieValue.bytes [255],
    host := ".linkedin.com".data, path := some "/", expiry := some 1700000000,
    secureFlag := some 1, httpOnlyFlag := some 1 }

/-- An ordinary decodable text row in the same store as `bytesRow`. -/
def textRow : RawCookieRow :=
  { name := "bcookie", value := CookieValue.text "v=2",
    host := ".linkedin.com".data, path := some "/", expiry := some 1700000000,
    secureFlag := some 1, httpOnlyFlag := some 0 }

/-- A row with a host that has inner dots but no leading dot, a `NULL` path,
an explicitly-zero secure flag and a `NULL` httpOnly flag. -/
def wRow : RawCookieRow :=
  { name := "li_at", value := CookieValue.text "tok",
    host := "www.linkedin.com".data, path := none, expiry := some 5,
    secureFlag := some 0, httpOnlyFlag := none }

/-- A Chromium session-cookie row: `expires_utc = 0`. -/
def sessionRow : RawCookieRow :=
  { name := "JSESSIONID", value := CookieValue.text "ajax:123",
    host := ".www.linkedin.com".data, path := some "/", expiry := some 0,
    secureFlag := some 1, httpOnlyFlag := some 0 }

/-- A filesystem on which no path exists and no glob matches. -/
def emptyFS : FileSystemView := ⟨fun _ => false, fun _ => []⟩

/-! ### C8 — domain normalization is idempotent -/

/-- Claim C8: domain normalization is idempotent — for every host string,
renormalizing the normalized domain (in particular any already-dot-prefixed
domain) yields the same value. -/
theorem normalizeDomain_idempotent (h : List Char) :
    normalizeDomain (normalizeDomain h) = normalizeDomain h := by
  by_cases h1 : startsWithDot h
  · simp [normalizeDomain, h1]
  · by_cases h2 : containsDot h
    · have hn : normalizeDomain h = '.' :: h := by simp [normalizeDomain, h1, h2]
      have hsd : startsWithDot ('.' :: h) = true := rfl
      rw [hn]
      simp [normalizeDomain, hsd]
    · simp [normalizeDomain, h1, h2]

/-- Witness for C8 at a concrete already-dot-prefixed domain. -/
theorem normalizeDomain_idempotent_witness :
    normalizeDomain (normalizeDomain ".linkedin.com".data)
      = normalizeDomain ".linkedin.com".data :=
  normalizeDomain_idempotent ".linkedin.com".data

/-! ### C4 — normalization of domain, path, secure, httpOnly -/

/-- Claim C4: for every raw row of either family, the canonical cookie has
the raw host as domain when the host starts with a dot, the dot-prefixed
host when it contains a dot but does not start with one, and the unchanged
host when it contains no dot; path "/" when the raw path is `NULL` or empty
(and the raw path otherwise); `secure` equal to the truth value of a
supplied flag (an explicit `0`, i.e. false, is preserved) and `true` when
the flag is `NULL`; and `httpOnly` equal to the truth value of a supplied
flag and `false` when `NULL`. The Chromium extractor applies the same rules
to every row it emits. -/
theorem normalization_rules (r : RawCookieRow) :
    (startsWithDot r.host = true → (firefoxCookieOfRow r).domain = r.host) ∧
    (startsWithDot r.host = false → containsDot r.host = true →
      (firefoxCookieOfRow r).domain = '.' :: r.host) ∧
    (containsDot r.host = false → (firefoxCookieOfRow r).domain = r.host) ∧
    ((r.path = none ∨ r.path = some "") → (firefoxCookieOfRow r).path = "/") ∧
    (∀ s, r.path = some s → s ≠ "" → (firefoxCookieOfRow r).path = s) ∧
    (∀ v, r.secureFlag = some v → (firefoxCookieOfRow r).secure = (v != 0)) ∧
    (r.secureFlag = none → (firefoxCookieOfRow r).secure = true) ∧
    (∀ v, r.httpOnlyFlag = some v → (firefoxCookieOfRow r).httpOnly = (v != 0)) ∧
    (r.httpOnlyFlag = none → (firefoxCookieOfRow r).httpOnly = false) ∧
    (∀ c, chromeCookieOfRow r = some c →
      c.domain = (firefoxCookieOfRow r).domain ∧
      c.path = (firefoxCookieOfRow r).path ∧
      c.secure = (firefoxCookieOfRow r).secure ∧
      c.httpOnly = (firefoxCookieOfRow r).httpOnly) := by
  refine ⟨?_, ?_, ?_, ?_, ?_, ?_, ?_, ?_, ?_, ?_⟩
  · intro h1; simp [firefoxCookieOfRow, normalizeDomain, h1]
  · intro h1 h2; simp [firefoxCookieOfRow, normalizeDomain, h1, h2]
  · intro h2
    have h2' : containsDot r.host ≠ true := by simp [h2]
    by_cases h1 : startsWithDot r.host
    · simp [firefoxCookieOfRow, normalizeDomain, h1]
    · simp [firefoxCookieOfRow, normalizeDomain, h1, h2']
  · rintro (hp | hp) <;> simp [firefoxCookieOfRow, pathOrSlash, hp]
  · intro s hs hne; simp [firefoxCookieOfRow, pathOrSlash, hs, hne]
  · intro v hv; simp [firefoxCookieOfRow, flagOrDefault, hv]
  · intro hv; simp [firefoxCookieOfRow, flagOrDefault, hv]
  · intro v hv; simp [firefoxCookieOfRow, flagOrDefault, hv]
  · intro hv; simp [firefoxCookieOfRow, flagOrDefault, hv]
  · intro c hc
    unfold chromeCookieOfRow at hc
    cases hd : decodeValue r.value with
    | none => rw [hd] at hc; cases hc
    | some v =>
      rw [hd] at hc
      cases hc
      exact ⟨rfl, rfl, rfl, rfl⟩

/-- Witness for C4 at a concrete row: dotted host gets the dot prefix, a
`NULL` path becomes "/", an explicit `0` secure flag stays false, a `NULL`
httpOnly flag defaults to false. -/
theorem normalization_rules_witness :
    (firefoxCookieOfRow wRow).domain = '.' :: wRow.host ∧
    (firefoxCookieOfRow wRow).path = "/" ∧
    (firefoxCookieOfRow wRow).secure = ((0 : Int) != 0) ∧
    (firefoxCookieOfRow wRow).httpOnly = false := by
  obtain ⟨-, h2, -, h4, -, h6, -, -, h9, -⟩ := normalization_rules wRow
  exact ⟨h2 (by decide) (by decide), h4 (Or.inl rfl), h6 0 rfl, h9 rfl⟩

/-! ### C10 — falsy store-native expiry becomes null -/

/-- Claim C10: for every row of either family, an absent (`NULL`) or zero
store-native expiry yields a null canonical expiry — in particular a
Chromium session cookie stored with `expires_utc = 0` is emitted with a
null expiry — while any non-zero expiry passes through unchanged. -/
theorem expiry_falsy_null (r : RawCookieRow) :
    ((r.expiry = none ∨ r.expiry = some 0) → (firefoxCookieOfRow r).expiry = none) ∧
    (∀ v : Int, r.expiry = some v → v ≠ 0 → (firefoxCookieOfRow r).expiry = some v) ∧
    (∀ c, chromeCookieOfRow r = some c →
      (((r.expiry = none ∨ r.expiry = some 0) → c.expiry = none) ∧
       (∀ v : Int, r.expiry = some v → v ≠ 0 → c.expiry = some v))) := by
  have hff : (firefoxCookieOfRow r).expiry = truthyExpiry r.expiry := rfl
  refine ⟨?_, ?_, ?_⟩
  · rintro (he | he) <;> simp [hff, truthyExpiry, he]
  · intro v hv hne; simp [hff, truthyExpiry, hv, hne]
  · intro c hc
    unfold chromeCookieOfRow at hc
    cases hd : decodeValue r.value with
    | none => rw [hd] at hc; cases hc
    | some v =>
      rw [hd] at hc
      cases hc
      constructor
      · rintro (he | he) <;> simp [truthyExpiry, he]
      · intro v hv hne; simp [truthyExpiry, hv, hne]

/-- Witness for C10: the concrete Chromium session row with
`expires_utc = 0` is emitted with a null expiry. -/
theorem expiry_falsy_null_witness :
    ∃ c, chromeCookieOfRow sessionRow = some c ∧ c.expiry = none := by
  cases hc : chromeCookieOfRow sessionRow with
  | none => exact absurd hc (by decide)
  | some c =>
    exact ⟨c, rfl, ((expiry_falsy_null sessionRow).2.2 c hc).1 (Or.inr (by decide))⟩

/-! ### C6 — the prober swallows every error and never warns -/

/-- Claim C6: for every candidate store and any probe-time error, the probe
returns `false` (no exception escapes: the function is total into `Bool`),
prints nothing, and returns `true` exactly when one of its count queries
actually counted a positive number of target-domain rows — for a Firefox
store the grouped-domain count, or, after a schema error there, the
host-substring fallback count; for a Chromium store its single count. -/
theorem probe_swallows_errors (q1 q2 q : ProbeOutcome) :
    (has_linkedin_cookies_firefox q1 q2).2 = [] ∧
    (has_linkedin_cookies_chrome q).2 = [] ∧
    ((has_linkedin_cookies_firefox q1 q2).1 = true ↔
      (∃ n, 0 < n ∧ q1 = ProbeOutcome.count n) ∨
      (q1 = ProbeOutcome.opError ∧ ∃ m, 0 < m ∧ q2 = ProbeOutcome.count m)) ∧
    ((has_linkedin_cookies_chrome q).1 = true ↔
      ∃ n, 0 < n ∧ q = ProbeOutcome.count n) := by
  refine ⟨?_, ?_, ?_, ?_⟩
  · cases q1 <;> cases q2 <;> rfl
  · cases q <;> rfl
  · cases q1 <;> cases q2 <;> simp [has_linkedin_cookies_firefox]
  · cases q <;> simp [has_linkedin_cookies_chrome]

/-- Witness for C6: a probe hitting a non-schema error (e.g. a locked file)
on each query returns `false` and prints nothing, for both families. -/
theorem probe_swallows_errors_witness :
    (has_linkedin_cookies_firefox ProbeOutcome.otherError ProbeOutcome.otherError).2
      = ([] : List String) :=
  (probe_swallows_errors ProbeOutcome.otherError ProbeOutcome.otherError
    ProbeOutcome.otherError).1

/-! ### C7 — ranking is a stable two-bucket partition -/

/-- The prioritization fold, started from any pair of buckets, appends the
confirmed stores to the first bucket and the others to the second, in
enumeration order. -/
theorem rankStores_foldl {α : Type} (p : α → Bool) (l : List α) (a b : List α) :
    l.foldl
      (fun (acc : List α × List α) f =>
        if p f then (acc.1 ++ [f], acc.2) else (acc.1, acc.2 ++ [f]))
      (a, b)
      = (a ++ l.filter p, b ++ l.filter (fun x => !(p x))) := by
  induction l generalizing a b with
  | nil => simp
  | cons x xs ih =>
    by_cases hx : p x
    · simp [hx, ih, List.filter_cons]
    · simp [hx, ih, List.filter_cons]

/-- Claim C7: for every enumerated candidate list, the ranking equals the
probe-confirmed stores followed by the unconfirmed ones, each bucket in
original enumeration order — i.e. a stable two-bucket partition. -/
theorem rankStores_stable_partition {α : Type} (p : α → Bool) (l : List α) :
    rankStores p l = l.filter p ++ l.filter (fun x => !(p x)) := by
  simp [rankStores, rankStores_foldl]

/-- Witness for C7 at a concrete list: even elements (confirmed) first, odd
elements after, both in original order. -/
theorem rankStores_stable_partition_witness :
    rankStores (fun n => decide (n % 2 = 0)) [1, 2, 3, 4] = [2, 4, 1, 3] := by
  rw [rankStores_stable_partition]
  decide

/-! ### C2 — ordered query fallback short-circuits on first success -/

/-- Does the Firefox query loop fall through past this outcome to the next
query? `OperationalError` and an empty row set do; any other exception
escapes to the outer handler instead. -/
def firefoxFallsThrough : QueryResult → Bool
  | QueryResult.schemaError => true
  | QueryResult.otherError => false
  | QueryResult.ok rows => rows.isEmpty

/-- Does the Chromium query loop fall through past this outcome? Every
failure does (both `except` arms `continue`), as does an empty row set. -/
def chromeFallsThrough : QueryResult → Bool
  | QueryResult.schemaError => true
  | QueryResult.otherError => true
  | QueryResult.ok rows => rows.isEmpty

/-- Firefox fallback: queries the loop falls through do not change the
result and each adds one to the executed-query count. -/
theorem firefox_fallback_aux (pre post : List QueryResult) (rows : List RawCookieRow)
    (hrows : rows ≠ []) (hpre : ∀ q ∈ pre, firefoxFallsThrough q = true) :
    extract_cookies_from_firefox (pre ++ QueryResult.ok rows :: post)
      = (some (rows.map firefoxCookieOfRow), pre.length + 1) := by
  induction pre with
  | nil =>
    obtain ⟨r, rs, rfl⟩ := List.exists_cons_of_ne_nil hrows
    simp [extract_cookies_from_firefox]
  | cons q pre' ih =>
    have hq := hpre q (List.mem_cons_self q pre')
    have hrest : ∀ x ∈ pre', firefoxFallsThrough x = true :=
      fun x hx => hpre x (List.mem_cons_of_mem _ hx)
    cases q with
    | schemaError =>
      simp [extract_cookies_from_firefox, ih hrest]
    | otherError => simp [firefoxFallsThrough] at hq
    | ok rows' =>
      have hempty : rows'.isEmpty = true := hq
      simp [extract_cookies_from_firefox, hempty, ih hrest]

/-- Chromium fallback: queries the loop falls through do not change the
result and each adds one to the executed-query count. -/
theorem chrome_fallback_aux (pre post : List QueryResult) (rows : List RawCookieRow)
    (hrows : rows ≠ []) (hpre : ∀ q ∈ pre, chromeFallsThrough q = true) :
    extract_cookies_from_chrome_edge (pre ++ QueryResult.ok rows :: post)
      = (some (rows.filterMap chromeCookieOfRow), pre.length + 1) := by
  induction pre with
  | nil =>
    obtain ⟨r, rs, rfl⟩ := List.exists_cons_of_ne_nil hrows
    simp [extract_cookies_from_chrome_edge]
  | cons q pre' ih =>
    have hq := hpre q (List.mem_cons_self q pre')
    have hrest : ∀ x ∈ pre', chromeFallsThrough x = true :=
      fun x hx => hpre x (List.mem_cons_of_mem _ hx)
    cases q with
    | schemaError =>
      simp [extract_cookies_from_chrome_edge, ih hrest]
    | otherError =>
      simp [extract_cookies_from_chrome_edge, ih hrest]
    | ok rows' =>
      have hempty : rows'.isEmpty = true := hq
      simp [extract_cookies_from_chrome_edge, hempty, ih hrest]

/-- Claim C2: for either family, when every query before position `k` in the
fixed order falls through (schema error or zero rows — for Firefox a
non-schema exception instead aborts the store, so no later query runs
either) and the query at `k` returns a non-empty row set, that query alone
determines the store's entire result, and exactly `k + 1` queries are
executed: the queries after it (`post`, arbitrary) are never run and do not
appear in the result. -/
theorem query_fallback_first_success (pre post : List QueryResult)
    (rows : List RawCookieRow) (hrows : rows ≠ []) :
    ((∀ q ∈ pre, firefoxFallsThrough q = true) →
      extract_cookies_from_firefox (pre ++ QueryResult.ok rows :: post)
        = (some (rows.map firefoxCookieOfRow), pre.length + 1)) ∧
    ((∀ q ∈ pre, chromeFallsThrough q = true) →
      extract_cookies_from_chrome_edge (pre ++ QueryResult.ok rows :: post)
        = (some (rows.filterMap chromeCookieOfRow), pre.length + 1)) :=
  ⟨firefox_fallback_aux pre post rows hrows,
   chrome_fallback_aux pre post rows hrows⟩

/-- Witness for C2: the first query raises a schema error, the second
returns one row — the result comes from the second query, two queries are
executed, and the third is never run. -/
theorem query_fallback_first_success_witness :
    extract_cookies_from_firefox
      [QueryResult.schemaError, QueryResult.ok [wRow], QueryResult.ok []]
      = (some ([wRow].map firefoxCookieOfRow), 2) :=
  (query_fallback_first_success [QueryResult.schemaError] [QueryResult.ok []]
    [wRow] (by decide)).1 (by decide)

/-! ### C3 — deduplication keeps the first occurrence per (name, domain) -/

/-- The dedup loop only ever keeps cookies whose key is not in `seen`. -/
theorem dedupGo_key_not_seen (seen : List (String × List Char)) (l : List Cookie) :
    ∀ c ∈ dedupGo seen l, cookieKey c ∉ seen := by
  induction l generalizing seen with
  | nil => simp [dedupGo]
  | cons x rest ih =>
    intro c hc
    by_cases h : cookieKey x ∈ seen
    · rw [dedupGo, if_pos h] at hc
      exact ih seen c hc
    · rw [dedupGo, if_neg h] at hc
      rcases List.mem_cons.1 hc with rfl | hc'
      · exact h
      · exact fun hmem => ih _ c hc' (List.mem_cons_of_mem _ hmem)

/-- The dedup loop's output is a sublist of its input. -/
theorem dedupGo_sublist (seen : List (String × List Char)) (l : List Cookie) :
    (dedupGo seen l).Sublist l := by
  induction l generalizing seen with
  | nil => simp [dedupGo]
  | cons x rest ih =>
    by_cases h : cookieKey x ∈ seen
    · rw [dedupGo, if_pos h]
      exact (ih seen).cons x
    · rw [dedupGo, if_neg h]
      exact (ih _).cons₂ x

/-- The keys of the dedup loop's output are pairwise distinct. -/
theorem dedupGo_keys_nodup (seen : List (String × List Char)) (l : List Cookie) :
    ((dedupGo seen l).map cookieKey).Nodup := by
  induction l generalizing seen with
  | nil => simp [dedupGo]
  | cons x rest ih =>
    by_cases h : cookieKey x ∈ seen
    · rw [dedupGo, if_pos h]
      exact ih seen
    · rw [dedupGo, if_neg h]
      rw [List.map_cons, List.nodup_cons]
      refine ⟨?_, ih _⟩
      intro hmem
      obtain ⟨c, hc, hkey⟩ := List.mem_map.1 hmem
      exact dedupGo_key_not_seen _ _ c hc
        (by rw [hkey]; exact List.mem_cons_self _ _)

/-- Every input cookie whose key is not yet seen is represented in the
dedup loop's output by a cookie with the same key. -/
theorem dedupGo_covers (l : List Cookie) :
    ∀ (seen : List (String × List Char)) (c : Cookie), c ∈ l → cookieKey c ∉ seen →
      ∃ d ∈ dedupGo seen l, cookieKey d = cookieKey c := by
  induction l with
  | nil => simp
  | cons x rest ih =>
    intro seen c hc hnot
    by_cases h : cookieKey x ∈ seen
    · rcases List.mem_cons.1 hc with rfl | hc'
      · exact absurd h hnot
      · obtain ⟨d, hd, hdk⟩ := ih seen c hc' hnot
        exact ⟨d, by rw [dedupGo, if_pos h]; exact hd, hdk⟩
    · by_cases hk : cookieKey c = cookieKey x
      · exact ⟨x, by rw [dedupGo, if_neg h]; exact List.mem_cons_self _ _, hk.symm⟩
      · rcases List.mem_cons.1 hc with rfl | hc'
        · exact absurd rfl hk
        · obtain ⟨d, hd, hdk⟩ := ih (cookieKey x :: seen) c hc'
            (by simp [List.mem_cons, hk, hnot])
          exact ⟨d, by rw [dedupGo, if_neg h]; exact List.mem_cons_of_mem _ hd, hdk⟩

/-- Every cookie the dedup loop keeps is the first cookie in the input with
its key. -/
theorem dedupGo_first_occurrence (seen : List (String × List Char)) (l : List Cookie) :
    ∀ d ∈ dedupGo seen l,
      l.find? (fun c => decide (cookieKey c = cookieKey d)) = some d := by
  induction l generalizing seen with
  | nil => simp [dedupGo]
  | cons x rest ih =>
    intro d hd
    by_cases h : cookieKey x ∈ seen
    · rw [dedupGo, if_pos h] at hd
      have hne : ¬ (cookieKey x = cookieKey d) := by
        intro he
        exact dedupGo_key_not_seen seen rest d hd (he ▸ h)
      rw [List.find?_cons_of_neg _ (by simp [hne])]
      exact ih seen d hd
    · rw [dedupGo, if_neg h] at hd
      rcases List.mem_cons.1 hd with rfl | hd'
      · exact List.find?_cons_of_pos _ (by simp)
      · have hne : ¬ (cookieKey x = cookieKey d) := by
          intro he
          exact dedupGo_key_not_seen _ _ d hd'
            (by rw [← he]; exact List.mem_cons_self _ _)
        rw [List.find?_cons_of_neg _ (by simp [hne])]
        exact ih _ d hd'

/-- Claim C3: for every sequence of extracted cookies, the deduplicated
result contains exactly one cookie per `(name, domain)` key (its keys are
pairwise distinct and every input key is represented), each retained cookie
is the first cookie with its key in discovery order, and the retained
cookies appear in insertion order (the result is a sublist of the input);
dropped duplicates are discarded silently — deduplication produces no other
output. -/
theorem dedup_first_occurrence_per_key (l : List Cookie) :
    (dedupCookies l).Sublist l ∧
    ((dedupCookies l).map cookieKey).Nodup ∧
    (∀ c ∈ l, ∃ d ∈ dedupCookies l, cookieKey d = cookieKey c) ∧
    (∀ d ∈ dedupCookies l,
      l.find? (fun c => decide (cookieKey c = cookieKey d)) = some d) :=
  ⟨dedupGo_sublist [] l, dedupGo_keys_nodup [] l,
   fun c hc => dedupGo_covers l [] c hc (by simp),
   dedupGo_first_occurrence [] l⟩

/-- A second cookie with the same `(name, domain)` key as
`firefoxCookieOfRow textRow` but a different value. -/
def dupCookie : Cookie :=
  { name := "bcookie", value := CookieValue.text "v=OTHER",
    domain := ".linkedin.com".data, path := "/", expiry := none,
    secure := true, httpOnly := false }

/-- Witness for C3 at a concrete duplicate-bearing list: the kept
representative of the duplicated key is the first occurrence. -/
theorem dedup_first_occurrence_per_key_witness :
    [firefoxCookieOfRow textRow, firefoxCookieOfRow wRow, dupCookie].find?
        (fun c => decide (cookieKey c = cookieKey (firefoxCookieOfRow textRow)))
      = some (firefoxCookieOfRow textRow) :=
  (dedup_first_occurrence_per_key
      [firefoxCookieOfRow textRow, firefoxCookieOfRow wRow, dupCookie]).2.2.2
    (firefoxCookieOfRow textRow) (by decide)

/-! ### C5 — decode failures are row-granular (Chromium only) -/

/-- Counterexample to claim C5 as stated: the Firefox extractor attempts no
decoding, so a row whose value is the undecodable byte `0xFF` is NOT
dropped — it is emitted with the raw bytes as its value, alongside the
store's decodable row. -/
theorem undecodable_row_kept_by_firefox :
    utf8Decode [255] = none ∧
    (extract_cookies_from_firefox [QueryResult.ok [bytesRow, textRow]]).1
      = some
        [{ name := "li_at", value := CookieValue.bytes [255],
           domain := ".linkedin.com".data, path := "/",
           expiry := some 1700000000, secure := true, httpOnly := true },
         { name := "bcookie", value := CookieValue.text "v=2",
           domain := ".linkedin.com".data, path := "/",
           expiry := some 1700000000, secure := true, httpOnly := false }] := by
  decide

/-- Claim C5 amended: only the Chromium extractor decodes values, and there
a row with an undecodable bytes value is dropped while every decodable row
of the same store is still extracted and the store's extraction does not
fail; the Firefox extractor attempts no decoding and passes every row's
value through unchanged, undecodable bytes included. -/
theorem decode_failure_row_granularity (rows : List RawCookieRow)
    (hrows : rows ≠ []) :
    (extract_cookies_from_chrome_edge [QueryResult.ok rows]).1
      = some (rows.filterMap chromeCookieOfRow) ∧
    (∀ r ∈ rows, decodeValue r.value = none → chromeCookieOfRow r = none) ∧
    (∀ r ∈ rows, ∀ c, chromeCookieOfRow r = some c →
      c ∈ rows.filterMap chromeCookieOfRow) ∧
    (∀ r ∈ rows, decodeValue r.value ≠ none → ∃ c, chromeCookieOfRow r = some c) ∧
    (extract_cookies_from_firefox [QueryResult.ok rows]).1
      = some (rows.map firefoxCookieOfRow) ∧
    (∀ r ∈ rows, (firefoxCookieOfRow r).value = r.value) := by
  obtain ⟨r0, rs0, rfl⟩ := List.exists_cons_of_ne_nil hrows
  refine ⟨?_, ?_, ?_, ?_, ?_, ?_⟩
  · simp [extract_cookies_from_chrome_edge]
  · intro r _ hdec
    unfold chromeCookieOfRow
    rw [hdec]
  · intro r hr c hc
    exact List.mem_filterMap.2 ⟨r, hr, hc⟩
  · intro r _ hdec
    unfold chromeCookieOfRow
    cases hd : decodeValue r.value with
    | none => exact absurd hd hdec
    | some v => exact ⟨_, rfl⟩
  · simp [extract_cookies_from_firefox]
  · intro r _
    rfl

/-- Witness for C5 (amended) at the concrete two-row store: the Chromium
extractor keeps exactly the decodable row. -/
theorem decode_failure_row_granularity_witness :
    (extract_cookies_from_chrome_edge [QueryResult.ok [bytesRow, textRow]]).1
      = some ([bytesRow, textRow].filterMap chromeCookieOfRow) :=
  (decode_failure_row_granularity [bytesRow, textRow] (by decide)).1

/-! ### C1 — the authentication-sufficiency verdict -/

/-- Counterexample to claim C1 as stated: a run whose deduplicated result
contains only cookies named `lang` and `bscookie` (and none named `li_at`,
`JSESSIONID` or `bcookie`) gets verdict `true`, not `false` — the code's
recognized list (line 400) includes `bscookie`. -/
theorem lang_bscookie_verdict_true :
    ((extract_linkedin_cookies [cexStore] "linkedin_cookies.json" true).artifact).map
        (fun l => l.map Cookie.name) = some ["lang", "bscookie"] ∧
    (extract_linkedin_cookies [cexStore] "linkedin_cookies.json" true).authSufficient
      = some true := by
  decide

/-- `found_auth_cookies` is true exactly when some cookie's name is in the
recognized list. -/
theorem found_auth_cookies_iff (l : List Cookie) :
    found_auth_cookies l = true ↔ ∃ c ∈ l, c.name ∈ auth_cookie_names := by
  simp [found_auth_cookies, List.any_eq_true]

/-- Claim C1 amended: whenever a run computes an authentication-sufficiency
verdict, the verdict is true iff at least one cookie in the deduplicated
result has a name in the code's fixed recognized list
`["li_at", "JSESSIONID", "bcookie", "bscookie"]` — which includes
`bscookie`, so a run whose result contains only `lang` and `bscookie` gets
verdict `true`. -/
theorem auth_verdict_iff (stores : List BrowserStore) (out_file : String)
    (writeOk : Bool) (b : Bool)
    (hb : (extract_linkedin_cookies stores out_file writeOk).authSufficient = some b) :
    (b = true ↔ ∃ c ∈ dedupCookies (all_cookies stores), c.name ∈ auth_cookie_names) := by
  unfold extract_linkedin_cookies at hb
  by_cases h1 : stores.isEmpty
  · rw [if_pos h1] at hb
    cases hb
  · rw [if_neg h1] at hb
    by_cases h2 : (all_cookies stores).isEmpty
    · simp only [h2, if_pos] at hb
      cases hb
    · simp only [h2, if_neg, Bool.false_eq_true, not_false_eq_true] at hb
      have hb' : b = found_auth_cookies (dedupCookies (all_cookies stores)) := by
        by_cases h3 : writeOk
        · rw [if_pos h3] at hb
          cases hb
          rfl
        · rw [if_neg h3] at hb
          cases hb
          rfl
      rw [hb']
      exact found_auth_cookies_iff _

/-- Witness for C1 (amended) at the concrete lang+bscookie run: the verdict
`true` is justified by a result cookie whose name is recognized. -/
theorem auth_verdict_iff_witness :
    (true = true ↔
      ∃ c ∈ dedupCookies (all_cookies [cexStore]), c.name ∈ auth_cookie_names) :=
  auth_verdict_iff [cexStore] "linkedin_cookies.json" true true (by decide)

/-! ### C9 — zero candidate stores: no output path, no artifact -/

/-- Claim C9: a missing base directory contributes nothing to the Chrome
locator (an empty candidate list, not an error), and a run that discovered
zero candidate store files returns no output path and writes no artifact
(it returns before the write, with no verdict either). -/
theorem no_stores_no_artifact :
    (∀ (fs : FileSystemView) (probe : String → Bool) (base_paths : List String),
      (∀ b ∈ base_paths, fs.pathExists b = false) →
      get_chrome_cookie_files fs probe base_paths = []) ∧
    (∀ (out_file : String) (writeOk : Bool),
      extract_linkedin_cookies [] out_file writeOk = ⟨none, none, none⟩) := by
  constructor
  · intro fs probe base_paths hb
    unfold get_chrome_cookie_files
    have key : ∀ (bps : List String), (∀ x ∈ bps, fs.pathExists x = false) →
        ∀ acc : List String,
          bps.foldl (fun acc base => acc ++ chromeStoresUnder fs base) acc = acc := by
      intro bps
      induction bps with
      | nil => intro _ acc; rfl
      | cons x xs ih =>
        intro hxs acc
        have hx0 : chromeStoresUnder fs x = [] := by
          unfold chromeStoresUnder
          rw [if_neg (by simp [hxs x (List.mem_cons_self x xs)])]
        rw [List.foldl_cons, hx0, List.append_nil]
        exact ih (fun y hy => hxs y (List.mem_cons_of_mem _ hy)) acc
    rw [key base_paths hb []]
    rfl
  · intro out_file writeOk
    rfl

/-- Witness for C9: on a filesystem with no Chrome base directory the
locator finds nothing, and a run with zero discovered stores returns no
path, writes nothing, and computes no verdict. -/
theorem no_stores_no_artifact_witness :
    get_chrome_cookie_files emptyFS (fun _ => true) ["~/.config/google-chrome"] = [] ∧
    extract_linkedin_cookies [] "linkedin_cookies.json" true = ⟨none, none, none⟩ :=
  ⟨no_stores_no_artifact.1 emptyFS (fun _ => true) ["~/.config/google-chrome"]
      (by intro b _; rfl),
   no_stores_no_artifact.2 "linkedin_cookies.json" true⟩

end LinkedinScraper
